import Mathlib

/-!
Verification of the receipt-processing pipeline (`src/main.py`, `src/gpt.py`,
`src/file_io.py`): a CLI that extracts structured receipt fields via an
external vision API, normalizes amounts, filters expenses by an inclusive
date range, and aggregates spending by category.

Modelling conventions:
* Python values that can appear in a receipt field (the result of
  `json.loads` plus normalization) are modelled by `Val`:
  `None`/missing key ↦ `Val.null`, `bool` ↦ `Val.bool`, `int`/`float`
  ↦ `Val.num` (a rational; every concrete amount in this development is a
  dyadic rational, exactly representable as a double), `str` ↦ `Val.str`.
* A receipt dict is `Record` with the four fields `date`, `amount`,
  `vendor`, `category`; `rec.get(k)` on a missing or null key is `Val.null`.
* The results dict (filename ↦ record) is an association list in insertion
  order, matching Python dict iteration order.
* Python string operations used by the source (`strip`, `split("-")`,
  `int(s)`, `float(s)`, string comparison by code point) are re-implemented
  on `List Char` so that they compute by kernel reduction. `float(s)` is
  modelled for finite decimal/exponent literals (the forms receipts and the
  tests exercise); `inf`/`nan`/underscore separators are treated as
  unparseable.
-/

/-- Python values stored in receipt fields. -/
inductive Val where
  | null
  | bool (b : Bool)
  | num (q : ℚ)
  | str (s : String)
deriving DecidableEq

/-- A receipt record: the dict produced per image, accessed via `.get` with
the four keys `date`, `amount`, `vendor`, `category`. -/
structure Record where
  date : Val
  amount : Val
  vendor : Val
  category : Val
deriving DecidableEq

/-- Whitespace characters stripped by Python `str.strip()` (ASCII range). -/
def pyIsSpace (c : Char) : Bool :=
  c = ' ' || c = '\t' || c = '\n' || c = '\r' || c = '\x0b' || c = '\x0c'

/-- Python `str.strip()` on a character list. -/
def pyStripL (l : List Char) : List Char :=
  ((l.dropWhile pyIsSpace).reverse.dropWhile pyIsSpace).reverse

/-- Python `s.split(sep)` for a one-character separator: `"".split("-")`
is `[""]`, adjacent separators yield empty pieces. -/
def splitOnChar (l : List Char) (sep : Char) : List (List Char) :=
  match l with
  | [] => [[]]
  | x :: xs =>
    match splitOnChar xs sep with
    | [] => if x = sep then [[], []] else [[x]]
    | h :: t => if x = sep then [] :: h :: t else (x :: h) :: t

/-- Leading `+`/`-` sign of a numeric literal; `true` means negative. -/
def takeSign : List Char → Bool × List Char
  | '+' :: r => (false, r)
  | '-' :: r => (true, r)
  | l => (false, l)

/-- Value of a list of decimal digit characters, most significant first. -/
def digitsVal (l : List Char) : Nat :=
  l.foldl (fun a c => a * 10 + (c.toNat - 48)) 0

/-- Python `int(s)` for a string operand: strips whitespace, then an
optional sign followed by at least one decimal digit. -/
def pyIntL (l : List Char) : Option Int :=
  let t := pyStripL l
  let (neg, r) := takeSign t
  if r.isEmpty then none
  else if r.all Char.isDigit then
    some (if neg then -(digitsVal r : Int) else (digitsVal r : Int))
  else none

/-- Longest prefix of decimal digits and the remainder. -/
def takeDigits (l : List Char) : List Char × List Char :=
  match l with
  | [] => ([], [])
  | c :: rest =>
    if c.isDigit then
      let (d, r) := takeDigits rest
      (c :: d, r)
    else ([], l)

/-- Ten to an integer power, as a rational. -/
def pow10 (e : Int) : ℚ :=
  if 0 ≤ e then ((10 : ℚ) ^ e.toNat) else ((10 : ℚ) ^ (-e).toNat)⁻¹

/-- Mantissa of a float literal: `digits`, `digits.`, `digits.digits` or
`.digits`; returns the integer-part value, fraction-part value, number of
fraction digits, and the remainder. -/
def takeMantissa (l : List Char) : Option (Nat × Nat × Nat × List Char) :=
  let (ip, r1) := takeDigits l
  match r1 with
  | '.' :: r2 =>
    let (fp, r3) := takeDigits r2
    if ip.isEmpty && fp.isEmpty then none
    else some (digitsVal ip, digitsVal fp, fp.length, r3)
  | _ => if ip.isEmpty then none else some (digitsVal ip, 0, 0, r1)

/-- Optional exponent part `e`/`E` with signed digits; `none` on a bare
exponent marker, `(0, l)` when no marker is present. -/
def takeExponent (l : List Char) : Option (Int × List Char) :=
  match l with
  | c :: r =>
    if c = 'e' || c = 'E' then
      let (neg, r2) := takeSign r
      let (ds, r3) := takeDigits r2
      if ds.isEmpty then none
      else some ((if neg then -(digitsVal ds : Int) else (digitsVal ds : Int)), r3)
    else some (0, c :: r)
  | [] => some (0, [])

/-- Shape of a finite float literal: sign, integer-part value,
fraction-part value, number of fraction digits, exponent. -/
structure FloatLit where
  neg : Bool
  ip : Nat
  fp : Nat
  fracLen : Nat
  ex : Int
deriving DecidableEq

/-- Syntactic part of Python `float(s)`: strips whitespace, then optional
sign, mantissa, optional exponent, nothing trailing. -/
def parseFloatLit (l : List Char) : Option FloatLit :=
  let t := pyStripL l
  let (neg, r) := takeSign t
  match takeMantissa r with
  | none => none
  | some (ip, fp, fl, r2) =>
    match takeExponent r2 with
    | none => none
    | some (ex, r3) =>
      if r3.isEmpty then some ⟨neg, ip, fp, fl, ex⟩ else none

/-- Numeric value of a float literal. -/
def FloatLit.value (f : FloatLit) : ℚ :=
  (if f.neg then -1 else 1) * ((f.ip : ℚ) + (f.fp : ℚ) / (10 : ℚ) ^ f.fracLen)
    * pow10 f.ex

/-- Python `float(s)` on finite decimal/exponent literals. -/
def pyFloatL (l : List Char) : Option ℚ :=
  (parseFloatLit l).map FloatLit.value

/-- Source `normalize_amount` (`main.py` lines 11-34): when the amount is a
string, strip it, drop one leading `$` (stripping again), and replace the
amount with `float(cleaned)` when that conversion succeeds; any other case
returns the record unchanged. -/
def normalize_amount (data : Record) : Record :=
  match data.amount with
  | .str s =>
    let stripped := pyStripL s.toList
    let cleaned :=
      match stripped with
      | '$' :: rest => pyStripL rest
      | _ => stripped
    match pyFloatL cleaned with
    | some q => { data with amount := .num q }
    | none => data
  | _ => data

/-- A Python `datetime.date`: the constructor (see `mkPyDate`) enforces
year 1-9999, month 1-12, day within the month. -/
structure PyDate where
  year : Nat
  month : Nat
  day : Nat
deriving DecidableEq

/-- Gregorian leap-year rule used by `datetime`. -/
def isLeapYear (y : Nat) : Bool :=
  y % 4 = 0 && (y % 100 ≠ 0 || y % 400 = 0)

/-- Days in a month of a given year, as in `datetime`. -/
def daysInMonth (y m : Nat) : Nat :=
  if m = 2 then (if isLeapYear y then 29 else 28)
  else if m = 4 ∨ m = 6 ∨ m = 9 ∨ m = 11 then 30
  else 31

/-- Python `datetime.date(y, m, d)`: `some` on valid components, `none`
models the `ValueError` swallowed by the caller. -/
def mkPyDate (y m d : Int) : Option PyDate :=
  if 1 ≤ y ∧ y ≤ 9999 ∧ 1 ≤ m ∧ m ≤ 12 ∧ 1 ≤ d ∧
      d ≤ (daysInMonth y.toNat m.toNat : Int) then
    some ⟨y.toNat, m.toNat, d.toNat⟩
  else none

/-- Comparison `a <= b` on dates, as `datetime.date` ordering
(lexicographic on year, month, day). -/
def PyDate.le (a b : PyDate) : Bool :=
  a.year < b.year ||
    (a.year = b.year &&
      (a.month < b.month || (a.month = b.month && a.day ≤ b.day)))

/-- Zero-pad the decimal rendering of `n` to width `w`. -/
def padNum (w n : Nat) : String :=
  let s := toString n
  String.mk (List.replicate (w - s.length) '0') ++ s

/-- Python `date.isoformat()`: `YYYY-MM-DD` with zero padding. -/
def PyDate.isoformat (d : PyDate) : String :=
  padNum 4 d.year ++ "-" ++ padNum 2 d.month ++ "-" ++ padNum 2 d.day

/-- Source `parse_date_yyyy_mm_dd` (`main.py` lines 37-53): non-strings
give `None`; otherwise strip, split on `"-"`, require exactly three pieces,
convert each with `int`, and build a `datetime.date`; every failure inside
the `try` yields `None`. -/
def parse_date_yyyy_mm_dd (v : Val) : Option PyDate :=
  match v with
  | .str s =>
    match splitOnChar (pyStripL s.toList) '-' with
    | [y, m, d] => do
      let yi ← pyIntL y
      let mi ← pyIntL m
      let di ← pyIntL d
      mkPyDate yi mi di
    | _ => none
  | _ => none

/-- Numeric value of an amount field, modelling
`isinstance(amt, (int, float))` followed by `float(amt)`; Python `bool` is
a subclass of `int`, so `True`/`False` count as `1`/`0`. -/
def amountNum (v : Val) : Option ℚ :=
  match v with
  | .num q => some q
  | .bool b => some (if b then 1 else 0)
  | _ => none

/-- An expense row: the tuple
`(filename, date-isoformat, float(amount), vendor, category)` built by
`filter_expenses`. -/
structure Row where
  fname : String
  dateIso : String
  amount : ℚ
  vendor : Val
  category : Val
deriving DecidableEq

/-- Loop body of `filter_expenses` (`main.py` lines 91-109) for one
`(fname, rec)` item: `None` when a `continue` is taken, otherwise the
appended row. -/
def rowOfRec (fname : String) (rec : Record) (sd ed : PyDate) : Option Row :=
  match parse_date_yyyy_mm_dd rec.date with
  | none => none
  | some d =>
    match amountNum rec.amount with
    | none => none
    | some q =>
      if sd.le d && d.le ed then
        some ⟨fname, d.isoformat, q, rec.vendor, rec.category⟩
      else none

/-- Python `<` on strings restricted to a character list: lexicographic by
code point. -/
def listCharLt : List Char → List Char → Bool
  | [], [] => false
  | [], _ :: _ => true
  | _ :: _, [] => false
  | a :: as, b :: bs =>
    if a.toNat < b.toNat then true
    else if b.toNat < a.toNat then false
    else listCharLt as bs

/-- Python `<=` on strings restricted to a character list. -/
def listCharLe (a b : List Char) : Bool := !listCharLt b a

/-- Sort key comparison of `rows.sort(key=lambda r: (r[1], r[0]))`: tuple
order on `(date isoformat, filename)`. -/
def rowLe (a b : Row) : Prop :=
  (if listCharLt a.dateIso.toList b.dateIso.toList then true
   else if listCharLt b.dateIso.toList a.dateIso.toList then false
   else listCharLe a.fname.toList b.fname.toList) = true

instance : DecidableRel rowLe := fun _ _ => instDecidableEqBool _ _

/-- Error message raised by `filter_expenses` on bad CLI dates. -/
def dateErrMsg : String :=
  "Dates must be in YYYY-MM-DD format (e.g., 2026-01-19)."

/-- One iteration of the `filter_expenses` loop with the results dict
threaded explicitly: the body only reads `rec`, so the dict component is
returned as given. -/
def filterLoop (sd ed : PyDate)
    (acc : List (String × Record) × List Row) (kv : String × Record) :
    List (String × Record) × List Row :=
  (acc.1, acc.2 ++ (rowOfRec kv.1 kv.2 sd ed).toList)

/-- Source `filter_expenses` (`main.py` lines 74-113) with the results
dict threaded as explicit state: parse both CLI dates (raising
`ValueError` when either fails), build rows from each record, and sort by
`(date, filename)`. The first component is the dict after the call. -/
def filter_expenses_st (data : List (String × Record))
    (start_s end_s : String) :
    List (String × Record) × Except String (List Row) :=
  match parse_date_yyyy_mm_dd (.str start_s),
      parse_date_yyyy_mm_dd (.str end_s) with
  | some sd, some ed =>
    let p := data.foldl (filterLoop sd ed) (data, [])
    (p.1, .ok (List.insertionSort rowLe p.2))
  | _, _ => (data, .error dateErrMsg)

/-- Value returned (or error raised) by `filter_expenses`. -/
def filter_expenses (data : List (String × Record))
    (start_s end_s : String) : Except String (List Row) :=
  (filter_expenses_st data start_s end_s).2

/-- Category key of a record in `plot_by_category`: the stripped category
when it is a string that is non-empty after stripping, `none` when the
record is skipped. -/
def categoryKey (v : Val) : Option String :=
  match v with
  | .str s =>
    let t := pyStripL s.toList
    if t.isEmpty then none else some (String.mk t)
  | _ => none

/-- Python `sums[k] += a` on a `defaultdict(float)` kept as an association
list in insertion order: update in place, or append `(k, a)` at the end. -/
def addToSums (sums : List (String × ℚ)) (k : String) (a : ℚ) :
    List (String × ℚ) :=
  match sums with
  | [] => [(k, a)]
  | (k2, v2) :: rest =>
    if k2 = k then (k2, v2 + a) :: rest else (k2, v2) :: addToSums rest k a

/-- Loop body of `plot_by_category` (`main.py` lines 142-149) for one
record: skip unless the amount is numeric and the category a non-blank
string, else add `float(amt)` under the stripped category. -/
def plotStep (sums : List (String × ℚ)) (rec : Record) :
    List (String × ℚ) :=
  match amountNum rec.amount, categoryKey rec.category with
  | some a, some k => addToSums sums k a
  | _, _ => sums

/-- One iteration of the `plot_by_category` loop with the results dict
threaded explicitly: the body only reads `rec`. -/
def plotLoop (acc : List (String × Record) × List (String × ℚ))
    (kv : String × Record) :
    List (String × Record) × List (String × ℚ) :=
  (acc.1, plotStep acc.2 kv.2)

/-- Error message raised by `plot_by_category` when nothing is plottable. -/
def plotErrMsg : String :=
  "No valid (category, amount) data available to plot."

/-- Source `plot_by_category` (`main.py` lines 130-162) with the results
dict threaded as explicit state: accumulate per-category sums over
`data.values()`, raise `ValueError` when the sums are empty, otherwise
chart rendering is file output and the observable result is the
`(label, value)` list in insertion order. -/
def plot_by_category_st (data : List (String × Record)) :
    List (String × Record) × Except String (List (String × ℚ)) :=
  let p := data.foldl plotLoop (data, [])
  (p.1, if p.2.isEmpty then .error plotErrMsg else .ok p.2)

/-- Value returned (or error raised) by `plot_by_category`. -/
def plot_by_category (data : List (String × Record)) :
    Except String (List (String × ℚ)) :=
  (plot_by_category_st data).2

/-- Per-category sums of a list of records, the pure content of the
`plot_by_category` loop. -/
def categorySums (recs : List Record) : List (String × ℚ) :=
  recs.foldl plotStep []

/-- A parsed JSON value, as produced by `json.loads` on the body returned
by the completion API. -/
inductive Json where
  | null
  | bool (b : Bool)
  | num (q : ℚ)
  | str (s : String)
  | arr (elems : List Json)
  | obj (fields : List (String × Json))

/-- Closed category set offered to the model (`gpt.py` lines 7-8). -/
def CATEGORIES : List String :=
  ["Meals", "Transport", "Lodging", "Office Supplies",
   "Entertainment", "Other"]

/-- Source `extract_receipt_info` (`gpt.py` lines 10-61): the HTTP call
and the `json.loads` text parsing are external I/O; given the JSON value
that the service's response content parses to, the function returns it
unchanged — the source applies no validation, key filtering, or
transformation (`return json.loads(response.choices[0].message.content)`). -/
def extract_receipt_info (resp : Json) : Json := resp

/-- The four keys a receipt record is specified to carry. -/
def RECEIPT_KEYS : List String := ["date", "amount", "vendor", "category"]

/-- Whether a JSON value is an object whose key set is exactly the four
receipt keys. -/
def hasExactReceiptKeys (j : Json) : Bool :=
  match j with
  | .obj fields =>
    let ks := fields.map Prod.fst
    RECEIPT_KEYS.all (fun k => ks.contains k) &&
      ks.all (fun k => RECEIPT_KEYS.contains k)
  | _ => false

/-! Helper lemmas about the code-point lexicographic order used by the
row sort. -/

/-- Characters with equal code points are equal. -/
theorem char_eq_of_toNat_eq {a b : Char} (h : a.toNat = b.toNat) : a = b :=
  Char.eq_of_val_eq (UInt32.ext h)

/-- Strings with equal character lists are equal. -/
theorem string_eq_of_toList_eq {a b : String} (h : a.toList = b.toList) :
    a = b := by
  cases a
  cases b
  exact congrArg String.mk (by simpa [String.toList] using h)

/-- Lexicographic strict order is irreflexive. -/
theorem listCharLt_irrefl : ∀ a : List Char, listCharLt a a = false
  | [] => rfl
  | c :: t => by simp [listCharLt, listCharLt_irrefl t]

/-- Lexicographic strict order is asymmetric. -/
theorem listCharLt_asymm :
    ∀ a b : List Char, listCharLt a b = true → listCharLt b a = false
  | [], b => by cases b <;> simp [listCharLt]
  | _ :: _, [] => by simp [listCharLt]
  | a :: as, b :: bs => by
    by_cases hab : a.toNat < b.toNat
    · intro _
      simp [listCharLt, hab, Nat.lt_asymm hab]
    · by_cases hba : b.toNat < a.toNat
      · simp [listCharLt, hab, hba]
      · simp only [listCharLt, if_neg hab, if_neg hba]
        exact listCharLt_asymm as bs

/-- Lexicographic strict order is transitive. -/
theorem listCharLt_trans :
    ∀ a b c : List Char, listCharLt a b = true → listCharLt b c = true →
      listCharLt a c = true
  | [], b, c => by
    cases b <;> cases c <;> simp [listCharLt]
  | _ :: _, [], _ => by simp [listCharLt]
  | _ :: _, _ :: _, [] => by simp [listCharLt]
  | a :: as, b :: bs, c :: cs => by
    intro h1 h2
    simp only [listCharLt] at h1 h2 ⊢
    by_cases hab : a.toNat < b.toNat
    · by_cases hbc : b.toNat < c.toNat
      · rw [if_pos (hab.trans hbc)]
      · by_cases hcb : c.toNat < b.toNat
        · rw [if_neg hbc, if_pos hcb] at h2
          exact absurd h2 (by simp)
        · rw [if_pos (show a.toNat < c.toNat by omega)]
    · by_cases hba : b.toNat < a.toNat
      · rw [if_neg hab, if_pos hba] at h1
        exact absurd h1 (by simp)
      · by_cases hbc : b.toNat < c.toNat
        · rw [if_pos (show a.toNat < c.toNat by omega)]
        · by_cases hcb : c.toNat < b.toNat
          · rw [if_neg hbc, if_pos hcb] at h2
            exact absurd h2 (by simp)
          · rw [if_neg (show ¬ a.toNat < c.toNat by omega),
              if_neg (show ¬ c.toNat < a.toNat by omega)]
            rw [if_neg hab, if_neg hba] at h1
            rw [if_neg hbc, if_neg hcb] at h2
            exact listCharLt_trans as bs cs h1 h2

/-- Two lists neither of which lexicographically precedes the other are
equal. -/
theorem listCharLt_conn :
    ∀ a b : List Char, listCharLt a b = false → listCharLt b a = false →
      a = b
  | [], [] => by simp
  | [], _ :: _ => by simp [listCharLt]
  | _ :: _, [] => by simp [listCharLt]
  | a :: as, b :: bs => by
    by_cases hab : a.toNat < b.toNat
    · simp [listCharLt, hab]
    · by_cases hba : b.toNat < a.toNat
      · simp [listCharLt, hab, hba]
      · simp only [listCharLt, if_neg hab, if_neg hba]
        intro h1 h2
        have : a = b := char_eq_of_toNat_eq (by omega)
        rw [this, listCharLt_conn as bs h1 h2]

/-- Bool-level `<=` on character lists unfolds to the negated reversed
strict order. -/
theorem listCharLe_iff {a b : List Char} :
    listCharLe a b = true ↔ listCharLt b a = false := by
  simp [listCharLe]

/-- Lexicographic `<=` is transitive. -/
theorem listCharLe_trans {a b c : List Char} (h1 : listCharLe a b = true)
    (h2 : listCharLe b c = true) : listCharLe a c = true := by
  rw [listCharLe_iff] at h1 h2 ⊢
  by_cases h : listCharLt c a = true
  · by_cases h3 : listCharLt a b = true
    · exact absurd (listCharLt_trans c a b h h3) (by simp [h2])
    · have hab : a = b := listCharLt_conn a b (by simpa using h3) h1
      rw [hab] at h
      exact absurd h (by simp [h2])
  · simpa using h

/-- Characterization of the row comparison: strictly smaller date, or
equal dates and `<=` on filenames. -/
theorem rowLe_iff {a b : Row} :
    rowLe a b ↔ (listCharLt a.dateIso.toList b.dateIso.toList = true ∨
      (a.dateIso = b.dateIso ∧ listCharLe a.fname.toList b.fname.toList = true)) := by
  unfold rowLe
  by_cases h1 : listCharLt a.dateIso.toList b.dateIso.toList = true
  · rw [if_pos h1]
    exact iff_of_true rfl (Or.inl h1)
  · by_cases h2 : listCharLt b.dateIso.toList a.dateIso.toList = true
    · simp only [if_neg h1, if_pos h2]
      constructor
      · intro h
        exact absurd h (by simp)
      · rintro (h | ⟨he, _⟩)
        · exact absurd h h1
        · rw [he] at h2
          exact absurd h2 (by simp [listCharLt_irrefl])
    · have he : a.dateIso = b.dateIso :=
        string_eq_of_toList_eq
          (listCharLt_conn _ _ (by simpa using h1) (by simpa using h2))
      simp [h1, h2, he, listCharLt_irrefl]

instance : IsTotal Row rowLe :=
  ⟨fun a b => by
    rw [rowLe_iff, rowLe_iff]
    by_cases h1 : listCharLt a.dateIso.toList b.dateIso.toList = true
    · exact Or.inl (Or.inl h1)
    · by_cases h2 : listCharLt b.dateIso.toList a.dateIso.toList = true
      · exact Or.inr (Or.inl h2)
      · have he : a.dateIso = b.dateIso :=
          string_eq_of_toList_eq
            (listCharLt_conn _ _ (by simpa using h1) (by simpa using h2))
        by_cases h3 : listCharLt b.fname.toList a.fname.toList = true
        · exact Or.inr (Or.inr ⟨he.symm,
            listCharLe_iff.mpr (listCharLt_asymm _ _ h3)⟩)
        · exact Or.inl (Or.inr ⟨he, listCharLe_iff.mpr (by simpa using h3)⟩)⟩

instance : IsTrans Row rowLe :=
  ⟨fun a b c hab hbc => by
    rw [rowLe_iff] at hab hbc ⊢
    rcases hab with h1 | ⟨he1, hf1⟩
    · rcases hbc with h2 | ⟨he2, _⟩
      · exact Or.inl (listCharLt_trans _ _ _ h1 h2)
      · exact Or.inl (he2 ▸ h1)
    · rcases hbc with h2 | ⟨he2, hf2⟩
      · exact Or.inl (he1 ▸ h2)
      · exact Or.inr ⟨he1.trans he2, listCharLe_trans hf1 hf2⟩⟩

/-! Helper lemmas relating the state-threaded loops to their pure
descriptions. -/

/-- The `filter_expenses` loop leaves the dict untouched and appends
exactly the rows produced by `rowOfRec`, in iteration order. -/
theorem foldl_filterLoop (sd ed : PyDate) :
    ∀ (l : List (String × Record)) (st : List (String × Record))
      (rows : List Row),
      l.foldl (filterLoop sd ed) (st, rows) =
        (st, rows ++ l.filterMap (fun kv => rowOfRec kv.1 kv.2 sd ed))
  | [], st, rows => by simp
  | kv :: t, st, rows => by
    rw [List.foldl_cons]
    show t.foldl (filterLoop sd ed)
      (st, rows ++ (rowOfRec kv.1 kv.2 sd ed).toList) = _
    rw [foldl_filterLoop sd ed t st _]
    cases h : rowOfRec kv.1 kv.2 sd ed <;>
      simp [List.filterMap_cons, h]

/-- With both CLI dates valid, `filter_expenses` returns the sorted
filter-mapped rows. -/
theorem filter_expenses_ok {ss es : String} {sd ed : PyDate}
    (data : List (String × Record))
    (hs : parse_date_yyyy_mm_dd (.str ss) = some sd)
    (he : parse_date_yyyy_mm_dd (.str es) = some ed) :
    filter_expenses data ss es =
      .ok (List.insertionSort rowLe
        (data.filterMap fun kv => rowOfRec kv.1 kv.2 sd ed)) := by
  unfold filter_expenses filter_expenses_st
  rw [hs, he]
  simp [foldl_filterLoop]

/-- Characterization of a successful loop-body result. -/
theorem rowOfRec_eq_some {fn : String} {rec : Record} {sd ed : PyDate}
    {r : Row} :
    rowOfRec fn rec sd ed = some r ↔
      ∃ d q, parse_date_yyyy_mm_dd rec.date = some d ∧
        amountNum rec.amount = some q ∧ (sd.le d && d.le ed) = true ∧
        r = ⟨fn, d.isoformat, q, rec.vendor, rec.category⟩ := by
  unfold rowOfRec
  cases hd : parse_date_yyyy_mm_dd rec.date with
  | none => simp
  | some d =>
    cases ha : amountNum rec.amount with
    | none => simp
    | some q =>
      by_cases hb : (sd.le d && d.le ed) = true
      · simp only [if_pos hb]
        constructor
        · intro h
          exact ⟨d, q, rfl, rfl, hb, (Option.some.inj h).symm⟩
        · rintro ⟨d', q', hd', hq', _, hr⟩
          obtain rfl := Option.some.inj hd'
          obtain rfl := Option.some.inj hq'
          rw [hr]
      · simp [hb]
        intro h1 h2
        exact absurd (show (sd.le d && d.le ed) = true by simp [h1, h2]) hb

/-- A record failing a guard contributes nothing to the sums. -/
theorem plotStep_skip {s : List (String × ℚ)} {rec : Record}
    (h : amountNum rec.amount = none ∨ categoryKey rec.category = none) :
    plotStep s rec = s := by
  rcases h with h | h
  · cases hc : categoryKey rec.category <;> simp [plotStep, h, hc]
  · cases ha : amountNum rec.amount <;> simp [plotStep, h, ha]

/-- Adding to a sums dict never empties it. -/
theorem addToSums_ne_nil :
    ∀ (s : List (String × ℚ)) (k : String) (a : ℚ), addToSums s k a ≠ []
  | [], _, _ => by simp [addToSums]
  | (k2, v2) :: t, k, a => by
    simp only [addToSums]
    split <;> simp

/-- A single loop step leaves the sums empty exactly when they were empty
and the record is skipped. -/
theorem plotStep_eq_nil {s : List (String × ℚ)} {rec : Record} :
    plotStep s rec = [] ↔
      s = [] ∧ (amountNum rec.amount = none ∨
        categoryKey rec.category = none) := by
  cases ha : amountNum rec.amount <;> cases hc : categoryKey rec.category <;>
    simp [plotStep, ha, hc, addToSums_ne_nil]

/-- The accumulated sums are empty exactly when they started empty and
every record was skipped. -/
theorem foldl_plotStep_eq_nil :
    ∀ (recs : List Record) (s : List (String × ℚ)),
      recs.foldl plotStep s = [] ↔
        s = [] ∧ ∀ rec ∈ recs,
          amountNum rec.amount = none ∨ categoryKey rec.category = none
  | [], s => by simp
  | rec :: t, s => by
    rw [List.foldl_cons, foldl_plotStep_eq_nil t _, plotStep_eq_nil]
    constructor
    · rintro ⟨⟨h1, h2⟩, h3⟩
      exact ⟨h1, by simpa using ⟨h2, h3⟩⟩
    · rintro ⟨h1, h4⟩
      rw [List.forall_mem_cons] at h4
      exact ⟨⟨h1, h4.1⟩, h4.2⟩

/-- The `plot_by_category` loop leaves the dict untouched and accumulates
`plotStep` over the records in iteration order. -/
theorem foldl_plotLoop :
    ∀ (l : List (String × Record)) (st : List (String × Record))
      (s : List (String × ℚ)),
      l.foldl plotLoop (st, s) = (st, (l.map Prod.snd).foldl plotStep s)
  | [], st, s => by simp
  | kv :: t, st, s => by
    rw [List.foldl_cons]
    show t.foldl plotLoop (st, plotStep s kv.2) = _
    rw [foldl_plotLoop t st _]
    simp

/-- The aggregation result of `plot_by_category` in terms of the pure
per-category sums. -/
theorem plot_by_category_eq (data : List (String × Record)) :
    plot_by_category data =
      if (categorySums (data.map Prod.snd)).isEmpty then .error plotErrMsg
      else .ok (categorySums (data.map Prod.snd)) := by
  unfold plot_by_category plot_by_category_st categorySums
  rw [foldl_plotLoop]

/-! Claim theorems. -/

/-- C1 counterexample: the claim that the date parser returns a successful
calendar-date parse for "01/19/2026" and "Wed, Nov 06, 2019" is false on
the source: `parse_date_yyyy_mm_dd` tries only the single YYYY-MM-DD
layout, so both strings yield no match. -/
theorem date_parser_rejects_other_formats :
    (parse_date_yyyy_mm_dd (.str "01/19/2026")).isSome = false ∧
    (parse_date_yyyy_mm_dd (.str "Wed, Nov 06, 2019")).isSome = false := by
  decide

/-- C1 amended: the date parser accepts exactly the YYYY-MM-DD layout —
"2026-01-19" parses to January 19, 2026, while "01/19/2026",
"Wed, Nov 06, 2019" and "not-a-date" all return no match. -/
theorem date_parser_yyyy_mm_dd_only :
    parse_date_yyyy_mm_dd (.str "2026-01-19") = some ⟨2026, 1, 19⟩ ∧
    parse_date_yyyy_mm_dd (.str "01/19/2026") = none ∧
    parse_date_yyyy_mm_dd (.str "Wed, Nov 06, 2019") = none ∧
    parse_date_yyyy_mm_dd (.str "not-a-date") = none := by
  decide

/-- C2: normalizing a record whose amount is the string "$12.50" sets the
amount to the number 12.50 (= 25/2); a record whose amount is already a
number is left unchanged; a record whose amount is the unconvertible
string "abc" is left unchanged. -/
theorem normalize_amount_spec (rec : Record) :
    (rec.amount = .str "$12.50" →
      normalize_amount rec = { rec with amount := .num (25 / 2) }) ∧
    (∀ q : ℚ, rec.amount = .num q → normalize_amount rec = rec) ∧
    (rec.amount = .str "abc" → normalize_amount rec = rec) := by
  obtain ⟨d, a, v, c⟩ := rec
  refine ⟨?_, ?_, ?_⟩
  · intro h
    cases h
    have h2 : normalize_amount ⟨d, .str "$12.50", v, c⟩ =
        ⟨d, .num (FloatLit.value ⟨false, 12, 50, 2, 0⟩), v, c⟩ := rfl
    rw [show FloatLit.value ⟨false, 12, 50, 2, 0⟩ = 25 / 2 by
      norm_num [FloatLit.value, pow10]] at h2
    exact h2
  · intro q h
    cases h
    rfl
  · intro h
    cases h
    rfl

/-- C2 witness: the three cases of `normalize_amount_spec` at concrete
records. -/
theorem normalize_amount_spec_witness :
    normalize_amount ⟨.null, .str "$12.50", .null, .null⟩ =
      ⟨.null, .num (25 / 2), .null, .null⟩ ∧
    normalize_amount ⟨.null, .num (25 / 2), .null, .null⟩ =
      ⟨.null, .num (25 / 2), .null, .null⟩ ∧
    normalize_amount ⟨.null, .str "abc", .null, .null⟩ =
      ⟨.null, .str "abc", .null, .null⟩ :=
  ⟨(normalize_amount_spec _).1 rfl,
   (normalize_amount_spec _).2.1 (25 / 2) rfl,
   (normalize_amount_spec _).2.2 rfl⟩

/-- C4 counterexample: the extraction client performs no validation, so a
run whose service response parses to an object without the four receipt
keys returns a record without them, refuting "every extraction run". -/
theorem extract_receipt_info_keys_counterexample :
    hasExactReceiptKeys
      (extract_receipt_info (Json.obj [("message", Json.str "ok")])) =
      false := by
  decide

/-- C4 amended: the extraction client returns the parsed service response
unchanged (no validation or key filtering), so the returned record has
exactly the four keys date, amount, vendor, category precisely when the
service's JSON object has exactly those keys. -/
theorem extract_receipt_info_passthrough (resp : Json) :
    extract_receipt_info resp = resp ∧
    (hasExactReceiptKeys (extract_receipt_info resp) = true ↔
      hasExactReceiptKeys resp = true) :=
  ⟨rfl, Iff.rfl⟩

/-- C8: whenever either CLI bound fails to parse as YYYY-MM-DD, the filter
raises the user-facing ValueError; the result is this error for every
results collection, so no record is examined. -/
theorem filter_invalid_dates_error (data : List (String × Record))
    (ss es : String)
    (h : parse_date_yyyy_mm_dd (.str ss) = none ∨
      parse_date_yyyy_mm_dd (.str es) = none) :
    filter_expenses data ss es = .error dateErrMsg := by
  unfold filter_expenses filter_expenses_st
  rcases h with h | h
  · rw [h]
  · cases hp : parse_date_yyyy_mm_dd (.str ss) <;> rw [h]

/-- C8 witness: a malformed start bound at the empty collection. -/
theorem filter_invalid_dates_error_witness :
    filter_expenses [] "not-a-date" "2026-01-31" = .error dateErrMsg :=
  filter_invalid_dates_error [] "not-a-date" "2026-01-31"
    (Or.inl (by decide))

/-- C9: neither the expense filter nor the category aggregator mutates the
results collection: with the dict threaded as explicit state through each
loop, it comes back unchanged — every record and all its fields — for
every collection and bounds. -/
theorem filter_plot_leave_records_unchanged
    (data : List (String × Record)) (ss es : String) :
    (filter_expenses_st data ss es).1 = data ∧
    (plot_by_category_st data).1 = data := by
  constructor
  · unfold filter_expenses_st
    cases hs : parse_date_yyyy_mm_dd (.str ss) <;>
      cases he : parse_date_yyyy_mm_dd (.str es) <;>
        simp [foldl_filterLoop]
  · unfold plot_by_category_st
    rw [foldl_plotLoop]

/-- C3: for every results collection and valid inclusive bounds, the
filter succeeds without error and its rows are exactly those arising from
records whose date parses, whose amount is numeric, and whose date lies in
the inclusive range; records with unparseable dates or non-numeric
amounts contribute nothing. -/
theorem filter_expenses_keeps_exactly (data : List (String × Record))
    (ss es : String) (sd ed : PyDate)
    (hs : parse_date_yyyy_mm_dd (.str ss) = some sd)
    (he : parse_date_yyyy_mm_dd (.str es) = some ed) :
    ∃ rows, filter_expenses data ss es = .ok rows ∧
      ∀ r : Row, r ∈ rows ↔
        ∃ rec d q, (r.fname, rec) ∈ data ∧
          parse_date_yyyy_mm_dd rec.date = some d ∧
          amountNum rec.amount = some q ∧
          sd.le d = true ∧ d.le ed = true ∧
          r = ⟨r.fname, d.isoformat, q, rec.vendor, rec.category⟩ := by
  refine ⟨_, filter_expenses_ok data hs he, ?_⟩
  intro r
  rw [List.mem_insertionSort, List.mem_filterMap]
  constructor
  · rintro ⟨⟨fn, rec⟩, hkv, hrow⟩
    rw [rowOfRec_eq_some] at hrow
    obtain ⟨d, q, hd, hq, hb, hr⟩ := hrow
    have hfn : r.fname = fn := by rw [hr]
    rw [Bool.and_eq_true] at hb
    refine ⟨rec, d, q, ?_, hd, hq, hb.1, hb.2, ?_⟩
    · rw [hfn]
      exact hkv
    · rw [hfn]
      exact hr
  · rintro ⟨rec, d, q, hkv, hd, hq, hb1, hb2, hr⟩
    refine ⟨(r.fname, rec), hkv, ?_⟩
    rw [rowOfRec_eq_some]
    exact ⟨d, q, hd, hq, by simp [hb1, hb2], hr⟩

/-- C3 witness: bounds 2026-01-01 to 2026-01-31 on a collection where
2026-01-15 is kept while 2025-12-31, 2026-02-01, an unparseable date, and
a non-numeric amount are dropped without error. -/
theorem filter_expenses_keeps_exactly_witness :
    ∃ rows,
      filter_expenses
        [("r1", ⟨.str "2026-01-15", .num 5, .null, .null⟩),
         ("r2", ⟨.str "2025-12-31", .num 6, .null, .null⟩),
         ("r3", ⟨.str "2026-02-01", .num 7, .null, .null⟩),
         ("r4", ⟨.str "garbage", .num 8, .null, .null⟩),
         ("r5", ⟨.str "2026-01-20", .str "oops", .null, .null⟩)]
        "2026-01-01" "2026-01-31" = .ok rows ∧
      ∀ r : Row, r ∈ rows ↔
        ∃ rec d q,
          (r.fname, rec) ∈
            [("r1", (⟨.str "2026-01-15", .num 5, .null, .null⟩ : Record)),
             ("r2", ⟨.str "2025-12-31", .num 6, .null, .null⟩),
             ("r3", ⟨.str "2026-02-01", .num 7, .null, .null⟩),
             ("r4", ⟨.str "garbage", .num 8, .null, .null⟩),
             ("r5", ⟨.str "2026-01-20", .str "oops", .null, .null⟩)] ∧
          parse_date_yyyy_mm_dd rec.date = some d ∧
          amountNum rec.amount = some q ∧
          PyDate.le ⟨2026, 1, 1⟩ d = true ∧ PyDate.le d ⟨2026, 1, 31⟩ = true ∧
          r = ⟨r.fname, d.isoformat, q, rec.vendor, rec.category⟩ :=
  filter_expenses_keeps_exactly _ "2026-01-01" "2026-01-31"
    ⟨2026, 1, 1⟩ ⟨2026, 1, 31⟩ (by decide) (by decide)

/-- C5: aggregating a collection of two records both categorized "Meals"
with amounts 10 and 20 yields the single entry ("Meals", 30); a record
whose category is None contributes to no entry of the per-category sums. -/
theorem aggregator_sums_meals_skips_none :
    (∀ (fn1 fn2 : String) (d1 v1 d2 v2 : Val),
      plot_by_category
        [(fn1, ⟨d1, .num 10, v1, .str "Meals"⟩),
         (fn2, ⟨d2, .num 20, v2, .str "Meals"⟩)] = .ok [("Meals", 30)]) ∧
    (∀ (l1 l2 : List Record) (rec : Record), rec.category = .null →
      categorySums (l1 ++ rec :: l2) = categorySums (l1 ++ l2)) := by
  constructor
  · intro fn1 fn2 d1 v1 d2 v2
    have h : plot_by_category
        [(fn1, ⟨d1, .num 10, v1, .str "Meals"⟩),
         (fn2, ⟨d2, .num 20, v2, .str "Meals"⟩)] =
        .ok [("Meals", (10 : ℚ) + 20)] := rfl
    rw [show (10 : ℚ) + 20 = 30 by norm_num] at h
    exact h
  · intro l1 l2 rec hc
    unfold categorySums
    rw [List.foldl_append, List.foldl_append, List.foldl_cons,
      plotStep_skip (Or.inr (by rw [hc]; rfl))]

/-- C5 witness: the concrete two-record collection and a null-category
record inserted into the empty collection. -/
theorem aggregator_sums_meals_skips_none_witness :
    plot_by_category
      [("a", ⟨.null, .num 10, .null, .str "Meals"⟩),
       ("b", ⟨.null, .num 20, .null, .str "Meals"⟩)] =
      .ok [("Meals", 30)] ∧
    categorySums ([] ++ ⟨.null, .num 5, .null, .null⟩ :: []) =
      categorySums ([] ++ []) :=
  ⟨aggregator_sums_meals_skips_none.1 "a" "b" .null .null .null .null,
   aggregator_sums_meals_skips_none.2 [] [] ⟨.null, .num 5, .null, .null⟩ rfl⟩

/-- C6 counterexample: a record with numeric amount 5 and category " " — a
non-empty category string — is nevertheless skipped by the strip test, so
the aggregator still raises its error, refuting the claimed "if and only
if" for literal non-emptiness. -/
theorem aggregator_error_nonempty_counterexample :
    plot_by_category [("r", ⟨.null, .num 5, .null, .str " "⟩)] =
      .error plotErrMsg ∧
    (" " : String) ≠ "" := by
  constructor
  · rfl
  · decide

/-- C6 amended: the aggregator raises its explicit error exactly when no
record in the collection has both a numeric amount and a category that is
a string non-empty after stripping surrounding whitespace. -/
theorem aggregator_error_iff_no_plottable (data : List (String × Record)) :
    plot_by_category data = .error plotErrMsg ↔
      ∀ kv ∈ data, amountNum kv.2.amount = none ∨
        categoryKey kv.2.category = none := by
  rw [plot_by_category_eq]
  by_cases h : (categorySums (data.map Prod.snd)).isEmpty
  · rw [if_pos h]
    rw [List.isEmpty_iff] at h
    unfold categorySums at h
    rw [foldl_plotStep_eq_nil] at h
    constructor
    · intro _ kv hkv
      exact h.2 kv.2 (List.mem_map_of_mem _ hkv)
    · intro _
      rfl
  · rw [if_neg h]
    constructor
    · intro hcontra
      exact Except.noConfusion hcontra
    · intro hall
      exfalso
      apply h
      rw [List.isEmpty_iff]
      unfold categorySums
      rw [foldl_plotStep_eq_nil]
      refine ⟨rfl, ?_⟩
      intro rec hrec
      obtain ⟨kv, hkv, rfl⟩ := List.mem_map.mp hrec
      exact hall kv hkv

/-- C6 witness: the amended equivalence at a one-record collection whose
category is blank after stripping. -/
theorem aggregator_error_iff_no_plottable_witness :
    plot_by_category [("r", ⟨.null, .num 5, .null, .str "  "⟩)] =
        .error plotErrMsg ↔
      ∀ kv ∈ [("r", (⟨.null, .num 5, .null, .str "  "⟩ : Record))],
        amountNum kv.2.amount = none ∨ categoryKey kv.2.category = none :=
  aggregator_error_iff_no_plottable _

/-- C7: the rows returned by the filter are pairwise ordered ascending by
the pair (date, filename): for any earlier and later row, the earlier date
strictly precedes, or the dates are equal and the earlier filename is not
greater (code-point order, as Python compares the sort-key tuples). -/
theorem filter_rows_sorted_by_date_filename
    (data : List (String × Record)) (ss es : String) (rows : List Row)
    (h : filter_expenses data ss es = .ok rows) :
    rows.Pairwise (fun r1 r2 =>
      listCharLt r1.dateIso.toList r2.dateIso.toList = true ∨
        (r1.dateIso = r2.dateIso ∧
          listCharLe r1.fname.toList r2.fname.toList = true)) := by
  unfold filter_expenses filter_expenses_st at h
  cases hs : parse_date_yyyy_mm_dd (.str ss) with
  | none =>
    rw [hs] at h
    exact Except.noConfusion h
  | some sd =>
    cases he : parse_date_yyyy_mm_dd (.str es) with
    | none =>
      rw [hs, he] at h
      exact Except.noConfusion h
    | some ed =>
      rw [hs, he] at h
      simp only [foldl_filterLoop, List.nil_append] at h
      have hsorted := List.sorted_insertionSort rowLe
        (data.filterMap fun kv => rowOfRec kv.1 kv.2 sd ed)
      have hrows : List.insertionSort rowLe
          (data.filterMap fun kv => rowOfRec kv.1 kv.2 sd ed) = rows :=
        Except.ok.inj h
      rw [hrows] at hsorted
      exact hsorted.imp (fun hab => rowLe_iff.mp hab)

/-- C7 witness: the sortedness of the single kept row on the concrete
collection of `filter_expenses_keeps_exactly_witness`. -/
theorem filter_rows_sorted_by_date_filename_witness :
    List.Pairwise (fun r1 r2 : Row =>
      listCharLt r1.dateIso.toList r2.dateIso.toList = true ∨
        (r1.dateIso = r2.dateIso ∧
          listCharLe r1.fname.toList r2.fname.toList = true))
      [⟨"a1", "2026-01-15", 5, .null, .null⟩] :=
  filter_rows_sorted_by_date_filename
    [("a1", ⟨.str "2026-01-15", .num 5, .null, .null⟩)]
    "2026-01-01" "2026-01-31" _ (by rfl)

/-- C10: the category aggregator ignores the date field entirely —
rewriting every record's date leaves the per-category sums unchanged —
and groups by the stripped category string, so a "Meals" record with a
missing date and a " Meals " record with an unparseable date sum into the
single bucket ("Meals", 30). -/
theorem aggregator_ignores_date_strips_category :
    (∀ (recs : List Record) (f : Record → Val),
      categorySums (recs.map fun r => { r with date := f r }) =
        categorySums recs) ∧
    categorySums [⟨.null, .num 10, .null, .str "Meals"⟩,
      ⟨.str "garbage", .num 20, .null, .str " Meals "⟩] = [("Meals", 30)] := by
  constructor
  · intro recs f
    unfold categorySums
    rw [List.foldl_map]
    rfl
  · have h : categorySums [⟨.null, .num 10, .null, .str "Meals"⟩,
        ⟨.str "garbage", .num 20, .null, .str " Meals "⟩] =
        [("Meals", (10 : ℚ) + 20)] := rfl
    rw [show (10 : ℚ) + 20 = 30 by norm_num] at h
    exact h
